import Mathlib

set_option autoImplicit false

/-!
Shallow embedding of the contractor-ad HTTP service.

The repository ships several JavaScript variants of the same service:

* `IndexA` below embeds the first variant in `src/index.js`
  (better-sqlite3 backend, auth fallback secret, two accepted auth header
  spellings, metadata JSON-decoding with a 400 validation path and
  documented defaults for absent metadata fields).
* `Part0` below embeds `src/unnamed/part_000` (better-sqlite3 backend
  opened per request, secret taken from the environment with no fallback,
  single auth header spelling, no metadata decoding or validation,
  `fb_ad_ids` present in the schema and update allow-list, plus the
  `POST /api/leads` route).  The second, sql.js-backed variant embedded at
  the end of `src/index.js` has line-for-line the same handler logic as
  `part_000`, so `Part0` stands for both.

JSON values, the JavaScript truthiness used by the handlers, SQLite
parameter-binding rules of better-sqlite3 (only strings, numbers and null
bind; binding `undefined`, booleans, arrays or objects throws), and the two
tables (`ads`, `leads`) are modelled explicitly.  Timestamps are modelled
as a `now : Nat` parameter standing for `CURRENT_TIMESTAMP`.
-/

/-! ## JSON values -/

mutual

/-- A JSON value as delivered by the `express.json()` body parser.
`jobj` models a JavaScript object; an object produced by JSON decoding has
unique keys. -/
inductive JValue : Type where
  | jnull : JValue
  | jbool : Bool → JValue
  | jnum : Int → JValue
  | jstr : String → JValue
  | jarr : JArray → JValue
  | jobj : JObject → JValue

/-- A JSON array. -/
inductive JArray : Type where
  | nil : JArray
  | cons : JValue → JArray → JArray

/-- The fields of a JSON object, in insertion order. -/
inductive JObject : Type where
  | nil : JObject
  | cons : String → JValue → JObject → JObject

end

/-- First binding of a key in an object (keys of JavaScript objects are
unique, so first = only). -/
def JObject.find : JObject → String → Option JValue
  | .nil, _ => none
  | .cons k v t, key => if k = key then some v else JObject.find t key

/-- `Object.keys`, in insertion order. -/
def JObject.keys : JObject → List String
  | .nil => []
  | .cons k _ t => k :: JObject.keys t

def JObject.hasKey (fs : JObject) (key : String) : Bool :=
  (fs.find key).isSome

def JObject.noDupKeys : JObject → Bool
  | .nil => true
  | .cons k _ t => !(t.hasKey k) && t.noDupKeys

/-- Keep only the fields whose key satisfies `p`. -/
def JObject.filterKeys : JObject → (String → Bool) → JObject
  | .nil, _ => .nil
  | .cons k v t, p =>
      if p k then .cons k v (t.filterKeys p) else t.filterKeys p

def JObject.ofList : List (String × JValue) → JObject
  | [] => .nil
  | (k, v) :: t => .cons k v (JObject.ofList t)

/-- JavaScript property access `v[key]` for the plain-data keys the service
uses: `none` models `undefined` (missing key, or access on a non-object
primitive). -/
def jget : JValue → String → Option JValue
  | .jobj fs, key => fs.find key
  | _, _ => none

/-- `Object.keys(v)` as used by the PATCH handlers (non-objects contribute
no allow-listed keys). -/
def jkeys : JValue → List String
  | .jobj fs => fs.keys
  | _ => []

/-- JavaScript truthiness of a defined value. -/
def truthyV : JValue → Bool
  | .jnull => false
  | .jbool b => b
  | .jnum n => decide (n ≠ 0)
  | .jstr s => decide (s ≠ "")
  | .jarr _ => true
  | .jobj _ => true

/-- JavaScript truthiness where `none` is `undefined`. -/
def truthyO : Option JValue → Bool
  | none => false
  | some v => truthyV v

/-- JavaScript `a || d` for a possibly-undefined `a` and a defined
default `d`. -/
def jsOr (o : Option JValue) (d : JValue) : JValue :=
  match o with
  | some v => if truthyV v then v else d
  | none => d

/-- JavaScript `a || b` on possibly-undefined strings (header values). -/
def jsOrStr (a b : Option String) : Option String :=
  match a with
  | some s => if s = "" then b else some s
  | none => b

/-! ## JSON.stringify -/

def hexDigit (n : Nat) : String :=
  if n < 10 then String.singleton (Char.ofNat (48 + n))
  else String.singleton (Char.ofNat (87 + n))

def jsonEscChar (c : Char) : String :=
  if c = '"' then "\\\""
  else if c = '\\' then "\\\\"
  else if c = '\n' then "\\n"
  else if c = '\r' then "\\r"
  else if c = '\t' then "\\t"
  else if c = Char.ofNat 8 then "\\b"
  else if c = Char.ofNat 12 then "\\f"
  else if c.toNat < 32 then "\\u00" ++ hexDigit (c.toNat / 16) ++ hexDigit (c.toNat % 16)
  else String.singleton c

/-- A JSON string literal, escaped the way `JSON.stringify` escapes. -/
def jsonQuote (s : String) : String :=
  "\"" ++ String.join (s.toList.map jsonEscChar) ++ "\""

mutual

/-- `JSON.stringify` (on values; `undefined` is handled at call sites). -/
def stringify : JValue → String
  | .jnull => "null"
  | .jbool true => "true"
  | .jbool false => "false"
  | .jnum n => toString n
  | .jstr s => jsonQuote s
  | .jarr xs => "[" ++ stringifyArr xs ++ "]"
  | .jobj fs => "\x7b" ++ stringifyObj fs ++ "\x7d"

def stringifyArr : JArray → String
  | .nil => ""
  | .cons v .nil => stringify v
  | .cons v t => stringify v ++ "," ++ stringifyArr t

def stringifyObj : JObject → String
  | .nil => ""
  | .cons k v .nil => jsonQuote k ++ ":" ++ stringify v
  | .cons k v t => jsonQuote k ++ ":" ++ stringify v ++ "," ++ stringifyObj t

end

/-! ## JSON.parse

An executable model of `JSON.parse`, implementing a strict subset of JSON:
integer numbers only, the basic string escapes only, and objects with
distinct keys.  Whenever `parse` succeeds it agrees with `JSON.parse`;
where `parse` returns `none`, `JSON.parse` either throws or produces a
value outside the modelled fragment, and those inputs simply fall outside
the hypotheses of the theorems below. -/

/-- The four whitespace characters JSON permits between tokens. -/
def jsonWs (c : Char) : Bool :=
  decide (c = ' ' ∨ c = '\n' ∨ c = '\t' ∨ c = '\r')

def skipWs (cs : List Char) : List Char :=
  cs.dropWhile jsonWs

/-- The character a basic escape `\e` denotes. -/
def jsonUnesc (e : Char) : Option Char :=
  if e = '"' ∨ e = '\\' ∨ e = '/' then some e
  else if e = 'n' then some '\n'
  else if e = 't' then some '\t'
  else if e = 'r' then some '\r'
  else if e = 'b' then some (Char.ofNat 8)
  else if e = 'f' then some (Char.ofNat 12)
  else none

/-- Body of a JSON string literal, after the opening quote; returns the
decoded characters and the remaining input after the closing quote. -/
def parseStrChars : List Char → Option (List Char × List Char)
  | [] => none
  | '"' :: t => some ([], t)
  | '\\' :: e :: t =>
      match jsonUnesc e with
      | some c =>
          match parseStrChars t with
          | some (s, r) => some (c :: s, r)
          | none => none
      | none => none
  | c :: t =>
      if c.toNat < 32 then none
      else
        match parseStrChars t with
        | some (s, r) => some (c :: s, r)
        | none => none

def isDigit (c : Char) : Bool :=
  decide ('0' ≤ c ∧ c ≤ '9')

/-- Split the input into its leading digit run and the rest. -/
def takeDigits (cs : List Char) : List Char × List Char :=
  cs.span isDigit

/-- Decimal value of a digit run, accumulator-style. -/
def digitsToNat : Nat → List Char → Nat
  | acc, [] => acc
  | acc, c :: t => digitsToNat (acc * 10 + (c.toNat - 48)) t

/-- A JSON integer literal (no leading zeros, no fraction or exponent). -/
def parseNatTok (cs : List Char) : Option (Nat × List Char) :=
  match takeDigits cs with
  | ([], _) => none
  | (d :: ds, rest) =>
      if d = '0' ∧ ds ≠ [] then none
      else some (digitsToNat 0 (d :: ds), rest)

def parseIntTok : List Char → Option (Int × List Char)
  | '-' :: t =>
      match parseNatTok t with
      | some (n, r) => some (-(n : Int), r)
      | none => none
  | cs =>
      match parseNatTok cs with
      | some (n, r) => some ((n : Int), r)
      | none => none

mutual

def parseVal : Nat → List Char → Option (JValue × List Char)
  | 0, _ => none
  | fuel + 1, cs =>
    match skipWs cs with
    | 'n' :: 'u' :: 'l' :: 'l' :: t => some (.jnull, t)
    | 't' :: 'r' :: 'u' :: 'e' :: t => some (.jbool true, t)
    | 'f' :: 'a' :: 'l' :: 's' :: 'e' :: t => some (.jbool false, t)
    | '"' :: t =>
        match parseStrChars t with
        | some (s, r) => some (.jstr (String.mk s), r)
        | none => none
    | '[' :: t =>
        match skipWs t with
        | ']' :: r => some (.jarr .nil, r)
        | u =>
            match parseArrItems fuel u with
            | some (xs, r) => some (.jarr xs, r)
            | none => none
    | '{' :: t =>
        match skipWs t with
        | '}' :: r => some (.jobj .nil, r)
        | u =>
            match parseObjItems fuel u with
            | some (fs, r) => if fs.noDupKeys then some (.jobj fs, r) else none
            | none => none
    | cs2 =>
        match parseIntTok cs2 with
        | some (n, r) => some (.jnum n, r)
        | none => none

def parseArrItems : Nat → List Char → Option (JArray × List Char)
  | 0, _ => none
  | fuel + 1, cs =>
    match parseVal fuel cs with
    | some (v, r) =>
        match skipWs r with
        | ',' :: r2 =>
            match parseArrItems fuel r2 with
            | some (xs, r3) => some (.cons v xs, r3)
            | none => none
        | ']' :: r2 => some (.cons v .nil, r2)
        | _ => none
    | none => none

def parseObjItems : Nat → List Char → Option (JObject × List Char)
  | 0, _ => none
  | fuel + 1, cs =>
    match skipWs cs with
    | '"' :: t =>
        match parseStrChars t with
        | some (k, r) =>
            match skipWs r with
            | ':' :: r2 =>
                match parseVal fuel r2 with
                | some (v, r3) =>
                    match skipWs r3 with
                    | ',' :: r4 =>
                        match parseObjItems fuel r4 with
                        | some (fs, r5) => some (.cons (String.mk k) v fs, r5)
                        | none => none
                    | '}' :: r4 => some (.cons (String.mk k) v .nil, r4)
                    | _ => none
                | none => none
            | _ => none
        | none => none
    | _ => none

end

/-- `JSON.parse` on a whole string. -/
def parse (s : String) : Option JValue :=
  match parseVal (s.length + 2) s.toList with
  | some (v, r) => if (skipWs r).isEmpty then some v else none
  | none => none

/-! ## SQLite values, binding rules and the two tables -/

/-- A stored SQLite value.  The service binds only strings, numbers and
null, so three storage classes suffice (numbers are modelled as `Int`). -/
inductive SqlValue : Type where
  | null : SqlValue
  | int : Int → SqlValue
  | text : String → SqlValue
  deriving DecidableEq, Repr

/-- better-sqlite3 parameter binding of a defined JavaScript value:
strings, numbers and null bind; booleans, arrays and objects throw. -/
def bindVal : JValue → Option SqlValue
  | .jstr s => some (.text s)
  | .jnum n => some (.int n)
  | .jnull => some .null
  | _ => none

/-- Binding a possibly-undefined value: binding `undefined` throws. -/
def bindOpt : Option JValue → Option SqlValue
  | none => none
  | some v => bindVal v

/-- The stored `ad_content` column value:
`typeof ad_content === 'string' ? ad_content : JSON.stringify(ad_content)`.
`JSON.stringify(undefined)` is `undefined`, whose binding throws. -/
def adContentBind (body : JValue) : Option SqlValue :=
  match jget body "ad_content" with
  | some (.jstr s) => some (.text s)
  | some v => some (.text (stringify v))
  | none => none

/-- A row of the `ads` table.  The first `src/index.js` variant's schema
has no `fb_ad_ids` column; since that variant never reads or writes the
column, sharing one row type (with `fb_ad_ids` constantly null there) is
behaviourally faithful. -/
structure AdRow : Type where
  id : Nat
  service_type : SqlValue
  location : SqlValue
  status : SqlValue
  campaign_id : SqlValue
  ad_set_id : SqlValue
  fb_ad_ids : SqlValue
  budget : SqlValue
  max_daily_spend : SqlValue
  image_url : SqlValue
  customer_phone : SqlValue
  ad_content : SqlValue
  metadata : SqlValue
  error_details : SqlValue
  notes : SqlValue
  created_at : Nat
  updated_at : Nat
  deriving DecidableEq, Repr

/-- A row of the `leads` table. -/
structure LeadRow : Type where
  id : Nat
  lead_id : SqlValue
  campaign_id : SqlValue
  ad_id : SqlValue
  name : SqlValue
  email : SqlValue
  phone : SqlValue
  zip_code : SqlValue
  service_interest : SqlValue
  message : SqlValue
  created_time : SqlValue
  logged_at : Nat
  deriving DecidableEq, Repr

/-- Database state: rows in insertion (rowid) order plus the next
AUTOINCREMENT id of each table. -/
structure DbState : Type where
  ads : List AdRow
  adNext : Nat
  leads : List LeadRow
  leadNext : Nat
  deriving DecidableEq, Repr

/-- The state of a freshly created database. -/
def initState : DbState :=
  { ads := [], adNext := 1, leads := [], leadNext := 1 }

/-- Number of stored leads with the given `lead_id` value. -/
def countLead (st : DbState) (lv : SqlValue) : Nat :=
  (st.leads.filter (fun r => decide (r.lead_id = lv))).length

/-- Whether some stored lead has the given `lead_id` value (the UNIQUE
constraint, which ignores NULLs, only consults non-null values). -/
def hasLead (st : DbState) (lv : SqlValue) : Bool :=
  st.leads.any (fun r => decide (r.lead_id = lv))

/-- `SELECT * FROM ads WHERE campaign_id = ?` taking the first result
row: SQLite scans the table in rowid order, so this is the matching ad
with the smallest id. -/
def byCampaignFind (st : DbState) (cid : String) : Option AdRow :=
  st.ads.find? (fun r => decide (r.campaign_id = SqlValue.text cid))

/-! ## HTTP layer -/

/-- The JSON responses the service emits. -/
inductive Resp : Type where
  | okJson (body : JValue)
  | okAd (ad : AdRow)
  | badRequest (msg : String) (echo : Option JValue)
  | unauthorized
  | notFound
  | serverError

/-- The HTTP status code of a response. -/
def Resp.status : Resp → Nat
  | .okJson _ => 200
  | .okAd _ => 200
  | .badRequest _ _ => 400
  | .unauthorized => 401
  | .notFound => 404
  | .serverError => 500

/-- The `{success: true}` body. -/
def successBody : JValue := .jobj (.cons "success" (.jbool true) .nil)

/-- The `{id: lastInsertRowid}` body. -/
def idBody (n : Nat) : JValue := .jobj (.cons "id" (.jnum (n : Int)) .nil)

/-- A route of the service, with its parsed body / path parameters. -/
inductive Route : Type where
  | health
  | createAd (body : JValue)
  | getAd (id : Nat)
  | patchAd (id : Nat) (body : JValue)
  | byCampaign (campaign_id : String)
  | postLead (body : JValue)

/-- An inbound request: a route plus its (lower-cased) headers. -/
structure Request : Type where
  route : Route
  headers : List (String × String)

/-- Value of a request header, `none` when absent. -/
def hlookup (hdrs : List (String × String)) (k : String) : Option String :=
  match hdrs.find? (fun p => decide (p.1 = k)) with
  | some p => some p.2
  | none => none

/-! ## Shared PATCH /api/ads/:id machinery

Both variants build `UPDATE ads SET k1 = ?, ..., updated_at =
CURRENT_TIMESTAMP WHERE id = ?` from the body keys filtered by their
allow-list. -/

/-- Assign one allow-listed column of an ad row. -/
def setAdCol (k : String) (v : SqlValue) (r : AdRow) : AdRow :=
  if k = "status" then { r with status := v }
  else if k = "campaign_id" then { r with campaign_id := v }
  else if k = "ad_set_id" then { r with ad_set_id := v }
  else if k = "fb_ad_ids" then { r with fb_ad_ids := v }
  else if k = "notes" then { r with notes := v }
  else if k = "error_details" then { r with error_details := v }
  else r

/-- Apply the SET clauses of the UPDATE to one row. -/
def applyPairs (pairs : List (String × Option SqlValue)) (r : AdRow) : AdRow :=
  pairs.foldl (fun r p => setAdCol p.1 (p.2.getD .null) r) r

/-- Execute the prepared UPDATE: if some parameter fails to bind the
statement throws (500, nothing changes); otherwise every row whose id
matches gets the SET clauses plus `updated_at = CURRENT_TIMESTAMP`, and
the handler answers `{success: true}` regardless of how many rows
matched. -/
def patchApply (pairs : List (String × Option SqlValue)) (i : Nat)
    (st : DbState) (now : Nat) : Resp × DbState :=
  if pairs.all (fun p => p.2.isSome) then
    (.okJson successBody,
      { st with ads := st.ads.map (fun r =>
          if r.id = i then { applyPairs pairs r with updated_at := now } else r) })
  else (.serverError, st)

/-- The PATCH handler body, parameterised by the variant's allow-list:
filter the body keys by the allow-list, 400 when nothing is left,
otherwise run the UPDATE built from the surviving keys. -/
def patchCore (allowed : List String) (i : Nat) (body : JValue)
    (st : DbState) (now : Nat) : Resp × DbState :=
  if ((jkeys body).filter (fun k => allowed.contains k)).isEmpty then
    (.badRequest "No valid fields to update" none, st)
  else
    patchApply (((jkeys body).filter (fun k => allowed.contains k)).map
      (fun k => (k, bindOpt (jget body k)))) i st now

/-! ## Variant `IndexA`: first half of `src/index.js` -/

namespace IndexA

/-- `['status', 'campaign_id', 'ad_set_id', 'error_details', 'notes']` —
this variant's schema has no `fb_ad_ids` column and its allow-list
correspondingly omits it. -/
def allowed : List String :=
  ["status", "campaign_id", "ad_set_id", "error_details", "notes"]

/-- `typeof metadata === 'string' ? JSON.parse(metadata) : metadata`.
Outer `none` models `JSON.parse` throwing (caught, 500); `some none`
models `metadata` being `undefined`. -/
def metaOf (body : JValue) : Option (Option JValue) :=
  match jget body "metadata" with
  | some (.jstr s) =>
      match parse s with
      | some m => some (some m)
      | none => none
  | some v => some (some v)
  | none => some none

/-- `!(!meta || !meta.service_type)`. -/
def metaOk : Option JValue → Bool
  | none => false
  | some m => truthyV m && truthyO (jget m "service_type")

/-- `POST /api/webhook/ads/create` after a non-throwing metadata
decoding: either validate-and-insert or answer 400 echoing the body. -/
def createAdWith (mo : Option JValue) (body : JValue) (st : DbState)
    (now : Nat) : Resp × DbState :=
    if metaOk mo then
      let m := mo.getD .jnull
      let bService := bindOpt (jget m "service_type")
      let bLocation := bindVal (jsOr (jget m "location") (.jstr ""))
      let bStatus := bindVal (jsOr (jget body "status") (.jstr "pending_approval"))
      let bBudget := bindVal (jsOr (jget body "budget") (.jnum 0))
      let bMds := bindVal (jsOr (jget m "max_daily_spend") (.jnum 50))
      let bImage := bindVal (jsOr (jget m "image_url") (.jstr ""))
      let bPhone := bindVal (jsOr (jget m "customer_phone") (.jstr ""))
      let bAdc := adContentBind body
      if [bService, bLocation, bStatus, bBudget, bMds, bImage, bPhone, bAdc].all Option.isSome then
        let row : AdRow :=
          { id := st.adNext
            service_type := bService.getD .null
            location := bLocation.getD .null
            status := bStatus.getD .null
            campaign_id := .null
            ad_set_id := .null
            fb_ad_ids := .null
            budget := bBudget.getD .null
            max_daily_spend := bMds.getD .null
            image_url := bImage.getD .null
            customer_phone := bPhone.getD .null
            ad_content := bAdc.getD .null
            metadata := .text (stringify m)
            error_details := .null
            notes := .null
            created_at := now
            updated_at := now }
        (.okJson (idBody st.adNext),
          { st with ads := st.ads ++ [row], adNext := st.adNext + 1 })
      else (.serverError, st)
    else (.badRequest "Missing metadata.service_type" (some body), st)

/-- `POST /api/webhook/ads/create`. -/
def createAd (body : JValue) (st : DbState) (now : Nat) : Resp × DbState :=
  match metaOf body with
  | none => (.serverError, st)
  | some mo => createAdWith mo body st now

/-- `GET /api/ads/:id`. -/
def getAd (i : Nat) (st : DbState) : Resp :=
  match st.ads.find? (fun r => decide (r.id = i)) with
  | none => .notFound
  | some r => .okAd r

/-- `PATCH /api/ads/:id`. -/
def patchAd (i : Nat) (body : JValue) (st : DbState) (now : Nat) : Resp × DbState :=
  patchCore allowed i body st now

/-- `GET /api/ads/by-campaign/:campaign_id` (`... LIMIT 1`). -/
def byCampaign (cid : String) (st : DbState) : Resp :=
  match byCampaignFind st cid with
  | none => .notFound
  | some r => .okAd r

/-- `req.headers['x-internal-key'] || req.headers['internal_webhook_key']`. -/
def extractKey (hdrs : List (String × String)) : Option String :=
  jsOrStr (hlookup hdrs "x-internal-key") (hlookup hdrs "internal_webhook_key")

/-- `key !== INTERNAL_KEY` rejects; the configured secret is
`process.env.INTERNAL_WEBHOOK_KEY || 'supersecret-key-2026'`, always a
string. -/
def authPass (secret : String) (hdrs : List (String × String)) : Bool :=
  decide (extractKey hdrs = some secret)

/-- Which routes carry the `auth` middleware; `postLead` is not a route of
this variant at all (no middleware, express answers 404). -/
def requiresAuth : Route → Bool
  | .health => false
  | .postLead _ => false
  | _ => true

/-- Route handlers, after the auth gate. -/
def dispatch : Route → DbState → Nat → Resp × DbState
  | .health, st, _ =>
      (.okJson (.jobj (.cons "status" (.jstr "ok")
        (.cons "message" (.jstr "Contractor Ad API running") .nil))), st)
  | .createAd body, st, now => createAd body st now
  | .getAd i, st, _ => (getAd i st, st)
  | .patchAd i body, st, now => patchAd i body st now
  | .byCampaign cid, st, _ => (byCampaign cid st, st)
  | .postLead _, st, _ => (.notFound, st)

/-- The service: auth gate ahead of every protected handler. -/
def handle (secret : String) (req : Request) (st : DbState) (now : Nat) :
    Resp × DbState :=
  if requiresAuth req.route && !authPass secret req.headers then
    (.unauthorized, st)
  else dispatch req.route st now

end IndexA

/-! ## Variant `Part0`: `src/unnamed/part_000` (and the sql.js variant) -/

namespace Part0

/-- `['status', 'campaign_id', 'ad_set_id', 'fb_ad_ids', 'notes',
'error_details']`. -/
def allowed : List String :=
  ["status", "campaign_id", "ad_set_id", "fb_ad_ids", "notes", "error_details"]

/-- `POST /api/webhook/ads/create`: no decoding and no validation of
`metadata`.  Accessing `.service_type` on `undefined` throws (500);
binding an `undefined` field value throws (500); the NOT NULL constraints
on `service_type` and `location` reject null (500). -/
def createAd (body : JValue) (st : DbState) (now : Nat) : Resp × DbState :=
  match jget body "metadata" with
  | none => (.serverError, st)
  | some mv =>
    let bService := bindOpt (jget mv "service_type")
    let bLocation := bindOpt (jget mv "location")
    let bStatus := bindVal (jsOr (jget body "status") (.jstr "pending_approval"))
    let bBudget := bindOpt (jget body "budget")
    let bMds := bindOpt (jget mv "max_daily_spend")
    let bImage := bindOpt (jget mv "image_url")
    let bPhone := bindOpt (jget mv "customer_phone")
    let bAdc := adContentBind body
    if [bService, bLocation, bStatus, bBudget, bMds, bImage, bPhone, bAdc].all Option.isSome then
      if bService.getD .null = .null ∨ bLocation.getD .null = .null then
        (.serverError, st)
      else
        let row : AdRow :=
          { id := st.adNext
            service_type := bService.getD .null
            location := bLocation.getD .null
            status := bStatus.getD .null
            campaign_id := .null
            ad_set_id := .null
            fb_ad_ids := .null
            budget := bBudget.getD .null
            max_daily_spend := bMds.getD .null
            image_url := bImage.getD .null
            customer_phone := bPhone.getD .null
            ad_content := bAdc.getD .null
            metadata := .text (stringify mv)
            error_details := .null
            notes := .null
            created_at := now
            updated_at := now }
        (.okJson (idBody st.adNext),
          { st with ads := st.ads ++ [row], adNext := st.adNext + 1 })
    else (.serverError, st)

/-- `GET /api/ads/:id`. -/
def getAd (i : Nat) (st : DbState) : Resp :=
  match st.ads.find? (fun r => decide (r.id = i)) with
  | none => .notFound
  | some r => .okAd r

/-- `PATCH /api/ads/:id`. -/
def patchAd (i : Nat) (body : JValue) (st : DbState) (now : Nat) : Resp × DbState :=
  patchCore allowed i body st now

/-- `GET /api/ads/by-campaign/:campaign_id` (`queryOne`: first result
row of the scan). -/
def byCampaign (cid : String) (st : DbState) : Resp :=
  match byCampaignFind st cid with
  | none => .notFound
  | some r => .okAd r

/-- The ten destructured lead fields, in column order. -/
def leadFieldNames : List String :=
  ["lead_id", "campaign_id", "ad_id", "name", "email", "phone", "zip_code",
   "service_interest", "message", "created_time"]

/-- Whether every destructured lead field binds (an absent field is
`undefined` and its binding throws). -/
def leadBindsOk (body : JValue) : Bool :=
  (leadFieldNames.map (fun f => bindOpt (jget body f))).all Option.isSome

/-- The bound value of one lead field (only used when `leadBindsOk`). -/
def leadVal (body : JValue) (f : String) : SqlValue :=
  (bindOpt (jget body f)).getD .null

/-- The lead row inserted for a body whose ten fields all bind. -/
def leadRowOf (body : JValue) (i : Nat) (now : Nat) : LeadRow :=
  { id := i
    lead_id := leadVal body "lead_id"
    campaign_id := leadVal body "campaign_id"
    ad_id := leadVal body "ad_id"
    name := leadVal body "name"
    email := leadVal body "email"
    phone := leadVal body "phone"
    zip_code := leadVal body "zip_code"
    service_interest := leadVal body "service_interest"
    message := leadVal body "message"
    created_time := leadVal body "created_time"
    logged_at := now }

/-- `POST /api/leads`: `INSERT OR IGNORE INTO leads ...` — a duplicate
non-null `lead_id` makes the insert a silent no-op; either way the
response is `{success: true}`. -/
def postLead (body : JValue) (st : DbState) (now : Nat) : Resp × DbState :=
  if leadBindsOk body then
    if leadVal body "lead_id" ≠ SqlValue.null ∧ hasLead st (leadVal body "lead_id") then
      (.okJson successBody, st)
    else
      (.okJson successBody,
        { st with leads := st.leads ++ [leadRowOf body st.leadNext now],
                  leadNext := st.leadNext + 1 })
  else (.serverError, st)

/-- `req.headers['x-internal-key'] !== INTERNAL_KEY` rejects, where
`INTERNAL_KEY = process.env.INTERNAL_WEBHOOK_KEY` may be unset (`none`):
an absent header compares equal to an absent secret. -/
def authPass (secret : Option String) (hdrs : List (String × String)) : Bool :=
  decide (hlookup hdrs "x-internal-key" = secret)

/-- Every route except the health check carries the `auth` middleware. -/
def requiresAuth : Route → Bool
  | .health => false
  | _ => true

/-- Route handlers, after the auth gate. -/
def dispatch : Route → DbState → Nat → Resp × DbState
  | .health, st, now =>
      (.okJson (.jobj (.cons "status" (.jstr "ok")
        (.cons "time" (.jstr (toString now)) .nil))), st)
  | .createAd body, st, now => createAd body st now
  | .getAd i, st, _ => (getAd i st, st)
  | .patchAd i body, st, now => patchAd i body st now
  | .byCampaign cid, st, _ => (byCampaign cid st, st)
  | .postLead body, st, now => postLead body st now

/-- The service: auth gate ahead of every protected handler. -/
def handle (secret : Option String) (req : Request) (st : DbState) (now : Nat) :
    Resp × DbState :=
  if requiresAuth req.route && !authPass secret req.headers then
    (.unauthorized, st)
  else dispatch req.route st now

end Part0

/-! ## Helper lemmas -/

theorem find?_eq_head?_filter {α : Type} (p : α → Bool) (l : List α) :
    l.find? p = (l.filter p).head? := by
  induction l with
  | nil => rfl
  | cons a t ih =>
      cases hp : p a with
      | true =>
          rw [List.find?_cons_of_pos _ hp, List.filter_cons_of_pos hp]
          rfl
      | false =>
          rw [List.find?_cons_of_neg _ (by simp [hp]),
            List.filter_cons_of_neg (by simp [hp])]
          exact ih

theorem list_all_map {α β : Type} (l : List α) (f : α → β) (p : β → Bool) :
    (l.map f).all p = l.all (fun a => p (f a)) := by
  induction l with
  | nil => rfl
  | cons a t ih => simp [List.all_cons, ih]

/-- On an id no stored ad has, a PATCH with at least one allow-listed,
bindable field answers `{success: true}` and changes nothing. -/
theorem patchCore_missing_id (allowed : List String) (i : Nat) (body : JValue)
    (st : DbState) (now : Nat)
    (hne : (jkeys body).filter (fun k => allowed.contains k) ≠ [])
    (hbind : ((jkeys body).filter (fun k => allowed.contains k)).all
        (fun k => (bindOpt (jget body k)).isSome) = true)
    (hid : ∀ r ∈ st.ads, r.id ≠ i) :
    patchCore allowed i body st now = (.okJson successBody, st) := by
  unfold patchCore patchApply
  rw [if_neg (by rw [List.isEmpty_iff]; exact hne)]
  rw [list_all_map]
  rw [if_pos hbind]
  have hmap : st.ads.map (fun r =>
      if r.id = i then
        { applyPairs (((jkeys body).filter (fun k => allowed.contains k)).map
            (fun k => (k, bindOpt (jget body k)))) r with updated_at := now }
      else r) = st.ads := by
    rw [List.map_congr_left (fun r hr => if_neg (hid r hr))]
    exact List.map_id' st.ads
  rw [hmap]

/-! ## C10 -/

/-- C10: in the variants whose secret comes only from
`INTERNAL_WEBHOOK_KEY` with no fallback, when that variable is unset a
protected-route request without the `x-internal-key` header passes the
auth gate (the route handler runs), while any request supplying the
header is rejected with 401 and no state change. -/
theorem c10_auth_unset_secret (req : Request) (st : DbState) (now : Nat) :
    (hlookup req.headers "x-internal-key" = none →
      Part0.handle none req st now = Part0.dispatch req.route st now)
    ∧ (∀ v, hlookup req.headers "x-internal-key" = some v →
        Part0.requiresAuth req.route = true →
        Part0.handle none req st now = (.unauthorized, st)) := by
  constructor
  · intro h
    simp [Part0.handle, Part0.authPass, h]
  · intro v hv hr
    simp [Part0.handle, Part0.authPass, hv, hr]

/-- Witness for C10 at a concrete protected route. -/
theorem c10_witness :
    Part0.handle none ⟨.patchAd 1 (.jobj .nil), []⟩ initState 0 =
      Part0.dispatch (.patchAd 1 (.jobj .nil)) initState 0
    ∧ Part0.handle none ⟨.patchAd 1 (.jobj .nil), [("x-internal-key", "k")]⟩ initState 0 =
      (.unauthorized, initState) :=
  ⟨(c10_auth_unset_secret ⟨.patchAd 1 (.jobj .nil), []⟩ initState 0).1 rfl,
   (c10_auth_unset_secret ⟨.patchAd 1 (.jobj .nil), [("x-internal-key", "k")]⟩
      initState 0).2 "k" (by decide) rfl⟩

/-! ## C4 -/

/-- C4: a protected-route request whose auth key — accepted under either
header spelling in the first `src/index.js` variant, under
`x-internal-key` alone in `part_000` — does not equal the configured
secret is answered 401 Unauthorized with no storage mutation. -/
theorem c4_auth_reject :
    (∀ (secret : String) (req : Request) (st : DbState) (now : Nat),
       hlookup req.headers "x-internal-key" ≠ some secret →
       hlookup req.headers "internal_webhook_key" ≠ some secret →
       IndexA.requiresAuth req.route = true →
       IndexA.handle secret req st now = (.unauthorized, st))
    ∧ (∀ (secret : String) (req : Request) (st : DbState) (now : Nat),
       hlookup req.headers "x-internal-key" ≠ some secret →
       Part0.requiresAuth req.route = true →
       Part0.handle (some secret) req st now = (.unauthorized, st)) := by
  constructor
  · intro secret req st now h1 h2 hr
    have hk : IndexA.extractKey req.headers ≠ some secret := by
      unfold IndexA.extractKey jsOrStr
      cases hx : hlookup req.headers "x-internal-key" with
      | none => exact h2
      | some s =>
          by_cases hs : s = ""
          · simpa [hs] using h2
          · rw [hx] at h1
            simpa [hs] using h1
    simp [IndexA.handle, IndexA.authPass, hk, hr]
  · intro secret req st now h1 hr
    simp [Part0.handle, Part0.authPass, h1, hr]

/-- Witness for C4 at concrete requests with a wrong and an absent key. -/
theorem c4_witness :
    IndexA.handle "supersecret-key-2026"
        ⟨.getAd 1, [("x-internal-key", "bad")]⟩ initState 0 =
      (.unauthorized, initState)
    ∧ Part0.handle (some "sec") ⟨.patchAd 1 (.jobj .nil), []⟩ initState 0 =
      (.unauthorized, initState) :=
  ⟨c4_auth_reject.1 "supersecret-key-2026"
      ⟨.getAd 1, [("x-internal-key", "bad")]⟩ initState 0
      (by decide) (by decide) rfl,
   c4_auth_reject.2 "sec" ⟨.patchAd 1 (.jobj .nil), []⟩ initState 0
      (by decide) rfl⟩

/-! ## C8 -/

/-- C8 counterexample: the PATCH handlers never report not-found — with an
allow-listed field and an id absent from an empty store, the response is
`{success: true}` (HTTP 200, not 404). -/
theorem c8_counterexample :
    IndexA.patchAd 1 (.jobj (.cons "status" (.jstr "x") .nil)) initState 5 =
      (.okJson successBody, initState)
    ∧ (Resp.okJson successBody).status ≠ 404 :=
  ⟨rfl, by decide⟩

/-- C8 amended: a PATCH on an id no stored ad has, carrying at least one
allow-listed bindable field, answers `{success: true}` (HTTP 200) and
leaves the store unchanged; not-found is never reported. -/
theorem c8_amended (i : Nat) (body : JValue) (st : DbState) (now : Nat)
    (hid : ∀ r ∈ st.ads, r.id ≠ i) :
    ((jkeys body).filter (fun k => IndexA.allowed.contains k) ≠ [] →
     ((jkeys body).filter (fun k => IndexA.allowed.contains k)).all
         (fun k => (bindOpt (jget body k)).isSome) = true →
     IndexA.patchAd i body st now = (.okJson successBody, st))
    ∧ ((jkeys body).filter (fun k => Part0.allowed.contains k) ≠ [] →
       ((jkeys body).filter (fun k => Part0.allowed.contains k)).all
           (fun k => (bindOpt (jget body k)).isSome) = true →
       Part0.patchAd i body st now = (.okJson successBody, st)) :=
  ⟨fun hne hbind => patchCore_missing_id IndexA.allowed i body st now hne hbind hid,
   fun hne hbind => patchCore_missing_id Part0.allowed i body st now hne hbind hid⟩

/-- Witness for C8 at a concrete body and empty store. -/
theorem c8_witness :
    IndexA.patchAd 2 (.jobj (.cons "notes" (.jstr "n") .nil)) initState 5 =
      (.okJson successBody, initState)
    ∧ Part0.patchAd 2 (.jobj (.cons "notes" (.jstr "n") .nil)) initState 5 =
      (.okJson successBody, initState) :=
  ⟨(c8_amended 2 (.jobj (.cons "notes" (.jstr "n") .nil)) initState 5
      (by intro r hr; cases hr)).1 (by decide) (by decide),
   (c8_amended 2 (.jobj (.cons "notes" (.jstr "n") .nil)) initState 5
      (by intro r hr; cases hr)).2 (by decide) (by decide)⟩

/-! ## C9 -/

/-- C9: `GET /api/ads/by-campaign/:campaign_id` answers 404 when no
stored ad has that campaign id; otherwise it returns the first stored
matching ad (the match with the smallest id — SQLite scans in rowid
order), which in particular is the unique match when exactly one exists,
and a fixed deterministic choice when several do. -/
theorem c9_by_campaign (st : DbState) (cid : String) :
    (st.ads.filter (fun r => decide (r.campaign_id = SqlValue.text cid)) = [] →
      IndexA.byCampaign cid st = .notFound ∧ Part0.byCampaign cid st = .notFound)
    ∧ (∀ r rest,
        st.ads.filter (fun r => decide (r.campaign_id = SqlValue.text cid)) = r :: rest →
        IndexA.byCampaign cid st = .okAd r ∧ Part0.byCampaign cid st = .okAd r) := by
  constructor
  · intro h
    have hf : byCampaignFind st cid = none := by
      rw [byCampaignFind, find?_eq_head?_filter, h]
      rfl
    exact ⟨by rw [IndexA.byCampaign, hf], by rw [Part0.byCampaign, hf]⟩
  · intro r rest h
    have hf : byCampaignFind st cid = some r := by
      rw [byCampaignFind, find?_eq_head?_filter, h]
      rfl
    exact ⟨by rw [IndexA.byCampaign, hf], by rw [Part0.byCampaign, hf]⟩

/-- A sample ad row used in concrete-state witnesses. -/
def sampleAd (i : Nat) (cid : SqlValue) : AdRow :=
  { id := i
    service_type := .text "plumbing"
    location := .text ""
    status := .text "pending_approval"
    campaign_id := cid
    ad_set_id := .null
    fb_ad_ids := .null
    budget := .int 0
    max_daily_spend := .int 50
    image_url := .text ""
    customer_phone := .text ""
    ad_content := .text "c"
    metadata := .text ""
    error_details := .null
    notes := .null
    created_at := 0
    updated_at := 0 }

/-- A store holding two ads of campaign `"C"`. -/
def twoAdState : DbState :=
  { ads := [sampleAd 1 (.text "C"), sampleAd 2 (.text "C")]
    adNext := 3
    leads := []
    leadNext := 1 }

/-- Witness for C9: no match answers 404; two matches answer the first
(smallest id) one. -/
theorem c9_witness :
    (IndexA.byCampaign "Z" twoAdState = .notFound
      ∧ Part0.byCampaign "Z" twoAdState = .notFound)
    ∧ (IndexA.byCampaign "C" twoAdState = .okAd (sampleAd 1 (.text "C"))
      ∧ Part0.byCampaign "C" twoAdState = .okAd (sampleAd 1 (.text "C"))) :=
  ⟨(c9_by_campaign twoAdState "Z").1 (by decide),
   (c9_by_campaign twoAdState "C").2 (sampleAd 1 (.text "C"))
      [sampleAd 2 (.text "C")] (by decide)⟩

/-! ## C1 -/

/-- C1 counterexample: in the `part_000` variant a create request whose
`metadata` object lacks `service_type` is answered 500 (binding the
`undefined` value throws), not 400. -/
theorem c1_counterexample :
    (Part0.createAd (.jobj (.cons "metadata" (.jobj .nil) .nil)) initState 0).1.status = 500
    ∧ (Part0.createAd (.jobj (.cons "metadata" (.jobj .nil) .nil)) initState 0).1.status ≠ 400 :=
  ⟨rfl, by decide⟩

/-- C1 amended: when the create-ad request's metadata (after parsing, if
it arrived as a string) is absent or lacks a `service_type` field, the
first `src/index.js` variant responds 400 echoing the received body and
inserts no row, while the `part_000` variant responds 500 (also inserting
no row). -/
theorem c1_amended :
    (∀ (body : JValue) (st : DbState) (now : Nat),
       (IndexA.metaOf body = some none
         ∨ ∃ m, IndexA.metaOf body = some (some m) ∧ jget m "service_type" = none) →
       IndexA.createAd body st now =
         (.badRequest "Missing metadata.service_type" (some body), st))
    ∧ (∀ (body : JValue) (st : DbState) (now : Nat),
       (jget body "metadata" = none
         ∨ ∃ m, jget body "metadata" = some m ∧ jget m "service_type" = none) →
       Part0.createAd body st now = (.serverError, st)) := by
  constructor
  · intro body st now h
    rcases h with h | ⟨m, hm, hs⟩
    · simp [IndexA.createAd, IndexA.createAdWith, h, IndexA.metaOk]
    · simp [IndexA.createAd, IndexA.createAdWith, hm, IndexA.metaOk, hs, truthyO]
  · intro body st now h
    rcases h with h | ⟨m, hm, hs⟩
    · simp [Part0.createAd, h]
    · simp [Part0.createAd, hm, hs, bindOpt]

/-- Witness for C1: absent metadata in the first variant (400 + echo);
metadata without `service_type` in `part_000` (500). -/
theorem c1_witness :
    IndexA.createAd (.jobj .nil) initState 3 =
      (.badRequest "Missing metadata.service_type" (some (.jobj .nil)), initState)
    ∧ Part0.createAd (.jobj (.cons "metadata" (.jobj (.cons "location" (.jstr "LA") .nil)) .nil))
        initState 3 = (.serverError, initState) :=
  ⟨c1_amended.1 (.jobj .nil) initState 3 (Or.inl rfl),
   c1_amended.2 (.jobj (.cons "metadata" (.jobj (.cons "location" (.jstr "LA") .nil)) .nil))
      initState 3 (Or.inr ⟨.jobj (.cons "location" (.jstr "LA") .nil), rfl, rfl⟩)⟩

/-! ## C5 -/

/-- What `UPDATE ads SET status = 'approved', updated_at =
CURRENT_TIMESTAMP WHERE id = ?` does to one stored row. -/
def approveRow (i : Nat) (now : Nat) (r : AdRow) : AdRow :=
  if r.id = i then { r with status := .text "approved", updated_at := now } else r

/-- All ad columns other than `status` and `updated_at` agree. -/
def eqExceptStatus (r0 r1 : AdRow) : Prop :=
  r1.id = r0.id ∧ r1.service_type = r0.service_type ∧ r1.location = r0.location
  ∧ r1.campaign_id = r0.campaign_id ∧ r1.ad_set_id = r0.ad_set_id
  ∧ r1.fb_ad_ids = r0.fb_ad_ids ∧ r1.budget = r0.budget
  ∧ r1.max_daily_spend = r0.max_daily_spend ∧ r1.image_url = r0.image_url
  ∧ r1.customer_phone = r0.customer_phone ∧ r1.ad_content = r0.ad_content
  ∧ r1.metadata = r0.metadata ∧ r1.error_details = r0.error_details
  ∧ r1.notes = r0.notes ∧ r1.created_at = r0.created_at

/-- C5: PATCHing an ad with `{status: "approved"}` answers
`{success: true}`, rewrites exactly the matching rows to have
`status = "approved"` and `updated_at = now`, and for a request arriving
strictly after the row's last update moves `updated_at` strictly forward
while leaving every other column (including `created_at`, `service_type`,
`metadata` and `id`) unchanged.  Proved for both embedded variants. -/
theorem c5_patch_status_approved (st : DbState) (i : Nat) (now : Nat)
    (h : ∀ r ∈ st.ads, r.id = i → r.updated_at < now) :
    (IndexA.patchAd i (.jobj (.cons "status" (.jstr "approved") .nil)) st now =
        (.okJson successBody, { st with ads := st.ads.map (approveRow i now) })
      ∧ Part0.patchAd i (.jobj (.cons "status" (.jstr "approved") .nil)) st now =
        (.okJson successBody, { st with ads := st.ads.map (approveRow i now) }))
    ∧ ∀ r ∈ st.ads, r.id = i →
        (approveRow i now r).status = .text "approved"
        ∧ r.updated_at < (approveRow i now r).updated_at
        ∧ eqExceptStatus r (approveRow i now r) := by
  refine ⟨⟨rfl, rfl⟩, ?_⟩
  intro r hr hid
  have hlt := h r hr hid
  simp [approveRow, hid, eqExceptStatus, hlt]

/-- Witness for C5 on a concrete two-row store. -/
theorem c5_witness :
    IndexA.patchAd 1 (.jobj (.cons "status" (.jstr "approved") .nil)) twoAdState 5 =
      (.okJson successBody, { twoAdState with ads := twoAdState.ads.map (approveRow 1 5) })
    ∧ Part0.patchAd 1 (.jobj (.cons "status" (.jstr "approved") .nil)) twoAdState 5 =
      (.okJson successBody, { twoAdState with ads := twoAdState.ads.map (approveRow 1 5) }) :=
  (c5_patch_status_approved twoAdState 1 5 (by decide)).1

/-! ## C3 -/

/-- The body with only the allow-listed keys kept (what "every other key
is silently dropped" means). -/
def jfilterAllowed (allowed : List String) : JValue → JValue
  | .jobj fs => .jobj (fs.filterKeys (fun k => allowed.contains k))
  | v => v

theorem filterKeys_keys (fs : JObject) (p : String → Bool) :
    (fs.filterKeys p).keys = fs.keys.filter p := by
  cases fs with
  | nil => rfl
  | cons k v t =>
      have ih := filterKeys_keys t p
      cases hp : p k with
      | true => simp [JObject.filterKeys, JObject.keys, List.filter_cons, hp, ih]
      | false => simp [JObject.filterKeys, JObject.keys, List.filter_cons, hp, ih]

theorem filterKeys_find (fs : JObject) (p : String → Bool) (k : String)
    (hp : p k = true) : (fs.filterKeys p).find k = fs.find k := by
  cases fs with
  | nil => rfl
  | cons k2 v t =>
      have ih := filterKeys_find t p k hp
      by_cases hk : k2 = k
      · subst hk
        simp [JObject.filterKeys, hp, JObject.find]
      · cases hp2 : p k2 with
        | true => simp [JObject.filterKeys, hp2, JObject.find, hk, ih]
        | false => simp [JObject.filterKeys, hp2, JObject.find, hk, ih]

theorem list_filter_idem {α : Type} (p : α → Bool) (l : List α) :
    (l.filter p).filter p = l.filter p := by
  induction l with
  | nil => rfl
  | cons a t ih =>
      cases hp : p a with
      | true => simp [List.filter_cons, hp, ih]
      | false => simp [List.filter_cons, hp, ih]

/-- Dropping the non-allow-listed keys of the body before the PATCH
handler runs does not change what it does. -/
theorem patchCore_filter_equiv (allowed : List String) (i : Nat) (body : JValue)
    (st : DbState) (now : Nat) :
    patchCore allowed i (jfilterAllowed allowed body) st now =
      patchCore allowed i body st now := by
  cases body with
  | jobj fs =>
      unfold patchCore
      have hkeys : jkeys (jfilterAllowed allowed (.jobj fs)) =
          (jkeys (.jobj fs)).filter (fun k => allowed.contains k) := by
        simp [jfilterAllowed, jkeys, filterKeys_keys]
      rw [hkeys, list_filter_idem]
      have hmap : ((jkeys (.jobj fs)).filter (fun k => allowed.contains k)).map
            (fun k => (k, bindOpt (jget (jfilterAllowed allowed (.jobj fs)) k)))
          = ((jkeys (.jobj fs)).filter (fun k => allowed.contains k)).map
            (fun k => (k, bindOpt (jget (.jobj fs) k))) := by
        apply List.map_congr_left
        intro k hk
        have hp : allowed.contains k = true := (List.mem_filter.mp hk).2
        have hfind : jget (jfilterAllowed allowed (.jobj fs)) k = jget (.jobj fs) k := by
          show (fs.filterKeys (fun k => allowed.contains k)).find k = fs.find k
          exact filterKeys_find fs _ k hp
        rw [hfind]
      rw [hmap]
  | jnull => rfl
  | jbool b => rfl
  | jnum n => rfl
  | jstr s => rfl
  | jarr xs => rfl

/-- A PATCH whose body has no allow-listed key answers 400 and changes
nothing. -/
theorem patchCore_empty (allowed : List String) (i : Nat) (body : JValue)
    (st : DbState) (now : Nat)
    (h : (jkeys body).filter (fun k => allowed.contains k) = []) :
    patchCore allowed i body st now =
      (.badRequest "No valid fields to update" none, st) := by
  unfold patchCore
  rw [h]
  rfl

/-- The ad columns no PATCH allow-list contains, plus the immutable
`id`/`created_at`: these are untouched by any update statement. -/
def framePreserved (r0 r1 : AdRow) : Prop :=
  r1.id = r0.id ∧ r1.service_type = r0.service_type ∧ r1.location = r0.location
  ∧ r1.budget = r0.budget ∧ r1.max_daily_spend = r0.max_daily_spend
  ∧ r1.image_url = r0.image_url ∧ r1.customer_phone = r0.customer_phone
  ∧ r1.ad_content = r0.ad_content ∧ r1.metadata = r0.metadata
  ∧ r1.created_at = r0.created_at

theorem framePreserved_refl (r : AdRow) : framePreserved r r := by
  simp [framePreserved]

theorem framePreserved_trans {r0 r1 r2 : AdRow} (h1 : framePreserved r0 r1)
    (h2 : framePreserved r1 r2) : framePreserved r0 r2 := by
  unfold framePreserved at *
  obtain ⟨a1, b1, c1, d1, e1, f1, g1, i1, j1, k1⟩ := h1
  obtain ⟨a2, b2, c2, d2, e2, f2, g2, i2, j2, k2⟩ := h2
  exact ⟨a2.trans a1, b2.trans b1, c2.trans c1, d2.trans d1, e2.trans e1,
    f2.trans f1, g2.trans g1, i2.trans i1, j2.trans j1, k2.trans k1⟩

theorem setAdCol_frame (k : String) (v : SqlValue) (r : AdRow) :
    framePreserved r (setAdCol k v r) := by
  unfold setAdCol
  repeat' split
  all_goals simp [framePreserved]

theorem applyPairs_frame (pairs : List (String × Option SqlValue)) (r : AdRow) :
    framePreserved r (applyPairs pairs r) := by
  induction pairs generalizing r with
  | nil => exact framePreserved_refl r
  | cons p t ih =>
      exact framePreserved_trans (setAdCol_frame p.1 (p.2.getD .null) r) (ih _)

/-- Every row of the store after any PATCH arises from a stored row with
all non-allow-listed columns intact. -/
theorem patchCore_frame (allowed : List String) (i : Nat) (body : JValue)
    (st : DbState) (now : Nat) (r1 : AdRow)
    (hr : r1 ∈ (patchCore allowed i body st now).2.ads) :
    ∃ r0 ∈ st.ads, framePreserved r0 r1 := by
  unfold patchCore patchApply at hr
  split at hr
  · exact ⟨r1, hr, framePreserved_refl r1⟩
  · split at hr
    · simp only [List.mem_map] at hr
      obtain ⟨r0, hr0, heq⟩ := hr
      refine ⟨r0, hr0, ?_⟩
      rw [← heq]
      by_cases hid : r0.id = i
      · rw [if_pos hid]
        have hap := applyPairs_frame (((jkeys body).filter
            (fun k => allowed.contains k)).map (fun k => (k, bindOpt (jget body k)))) r0
        simpa [framePreserved] using hap
      · rw [if_neg hid]
        exact framePreserved_refl r0
    · exact ⟨r1, hr, framePreserved_refl r1⟩

/-- C3: for every PATCH body, in each variant only that variant's
allow-listed keys (`fb_ad_ids` only where the schema has it) reach the
stored ad — pre-dropping every other key changes nothing, every surviving
row keeps all non-allow-listed columns — and a body with no allow-listed
key is answered 400 with the store unchanged. -/
theorem c3_patch_allowlist :
    (∀ (i : Nat) (body : JValue) (st : DbState) (now : Nat),
        IndexA.patchAd i (jfilterAllowed IndexA.allowed body) st now =
          IndexA.patchAd i body st now
        ∧ Part0.patchAd i (jfilterAllowed Part0.allowed body) st now =
          Part0.patchAd i body st now)
    ∧ (∀ (i : Nat) (body : JValue) (st : DbState) (now : Nat),
        ((jkeys body).filter (fun k => IndexA.allowed.contains k) = [] →
          IndexA.patchAd i body st now =
            (.badRequest "No valid fields to update" none, st))
        ∧ ((jkeys body).filter (fun k => Part0.allowed.contains k) = [] →
          Part0.patchAd i body st now =
            (.badRequest "No valid fields to update" none, st)))
    ∧ (∀ (i : Nat) (body : JValue) (st : DbState) (now : Nat) (r1 : AdRow),
        (r1 ∈ (IndexA.patchAd i body st now).2.ads →
          ∃ r0 ∈ st.ads, framePreserved r0 r1)
        ∧ (r1 ∈ (Part0.patchAd i body st now).2.ads →
          ∃ r0 ∈ st.ads, framePreserved r0 r1)) :=
  ⟨fun i body st now =>
     ⟨patchCore_filter_equiv IndexA.allowed i body st now,
      patchCore_filter_equiv Part0.allowed i body st now⟩,
   fun i body st now =>
     ⟨fun h => patchCore_empty IndexA.allowed i body st now h,
      fun h => patchCore_empty Part0.allowed i body st now h⟩,
   fun i body st now r1 =>
     ⟨fun hr => patchCore_frame IndexA.allowed i body st now r1 hr,
      fun hr => patchCore_frame Part0.allowed i body st now r1 hr⟩⟩

/-- Witness for C3 at a concrete body mixing allowed and disallowed keys,
and at a body with only a disallowed key. -/
theorem c3_witness :
    IndexA.patchAd 1 (jfilterAllowed IndexA.allowed
        (.jobj (.cons "foo" (.jstr "bar") (.cons "notes" (.jstr "n") .nil))))
        twoAdState 7 =
      IndexA.patchAd 1
        (.jobj (.cons "foo" (.jstr "bar") (.cons "notes" (.jstr "n") .nil)))
        twoAdState 7
    ∧ Part0.patchAd 1 (.jobj (.cons "foo" (.jstr "bar") .nil)) twoAdState 7 =
      (.badRequest "No valid fields to update" none, twoAdState)
    ∧ ∃ r0 ∈ twoAdState.ads, framePreserved r0 (sampleAd 2 (.text "C")) :=
  ⟨(c3_patch_allowlist.1 1
      (.jobj (.cons "foo" (.jstr "bar") (.cons "notes" (.jstr "n") .nil)))
      twoAdState 7).1,
   (c3_patch_allowlist.2.1 1 (.jobj (.cons "foo" (.jstr "bar") .nil))
      twoAdState 7).2 (by decide),
   (c3_patch_allowlist.2.2 1 (.jobj (.cons "notes" (.jstr "n") .nil))
      twoAdState 7 (sampleAd 2 (.text "C"))).1 (by decide)⟩

/-! ## C2 -/

theorem hasLead_eq_false_of_countLead_zero (st : DbState) (lv : SqlValue)
    (h : countLead st lv = 0) : hasLead st lv = false := by
  rw [countLead, List.length_eq_zero] at h
  rw [hasLead, List.any_eq_false]
  intro r hr hp
  have hmem : r ∈ st.leads.filter (fun r => decide (r.lead_id = lv)) :=
    List.mem_filter.mpr ⟨hr, hp⟩
  rw [h] at hmem
  cases hmem

/-- C2: posting a fully-populated lead body (all ten fields bindable, with
a non-null `lead_id` not yet stored) twice through `POST /api/leads`
leaves exactly one stored row for that `lead_id`, the second call being a
silent no-op (the state after it is literally the state after the first —
no overwrite, no error), and both calls answer `{success: true}`. -/
theorem c2_idempotent_leads (body : JValue) (st : DbState) (now1 now2 : Nat)
    (hb : Part0.leadBindsOk body = true)
    (hnn : Part0.leadVal body "lead_id" ≠ SqlValue.null)
    (h0 : countLead st (Part0.leadVal body "lead_id") = 0) :
    (Part0.postLead body st now1).1 = .okJson successBody
    ∧ countLead (Part0.postLead body st now1).2 (Part0.leadVal body "lead_id") = 1
    ∧ (Part0.postLead body (Part0.postLead body st now1).2 now2).1 = .okJson successBody
    ∧ (Part0.postLead body (Part0.postLead body st now1).2 now2).2 =
      (Part0.postLead body st now1).2 := by
  have hnh := hasLead_eq_false_of_countLead_zero st (Part0.leadVal body "lead_id") h0
  have hcond : ¬(Part0.leadVal body "lead_id" ≠ SqlValue.null
      ∧ hasLead st (Part0.leadVal body "lead_id") = true) := by
    intro hc
    rw [hnh] at hc
    exact absurd hc.2 (by simp)
  have e1 : Part0.postLead body st now1 =
      (.okJson successBody,
        { st with leads := st.leads ++ [Part0.leadRowOf body st.leadNext now1],
                  leadNext := st.leadNext + 1 }) := by
    unfold Part0.postLead
    rw [if_pos hb, if_neg hcond]
  have hrow : (Part0.leadRowOf body st.leadNext now1).lead_id =
      Part0.leadVal body "lead_id" := rfl
  have h2 : hasLead (Part0.postLead body st now1).2 (Part0.leadVal body "lead_id") = true := by
    rw [e1, hasLead]
    simp [List.any_append, hrow]
  have e2 : Part0.postLead body (Part0.postLead body st now1).2 now2 =
      (.okJson successBody, (Part0.postLead body st now1).2) := by
    unfold Part0.postLead
    rw [if_pos hb, if_pos ⟨hnn, h2⟩]
  have h1c : countLead (Part0.postLead body st now1).2 (Part0.leadVal body "lead_id") = 1 := by
    rw [e1, countLead]
    rw [countLead, List.length_eq_zero] at h0
    simp [List.filter_append, h0, hrow]
  exact ⟨by rw [e1], h1c, by rw [e2], by rw [e2]⟩

/-- A fully-populated lead body used as the C2 witness. -/
def leadBodyW : JValue :=
  .jobj (JObject.ofList
    [("lead_id", .jstr "L1"), ("campaign_id", .jstr "C"), ("ad_id", .jstr "7"),
     ("name", .jstr "Ann"), ("email", .jstr "a@x"), ("phone", .jstr "555"),
     ("zip_code", .jstr "90210"), ("service_interest", .jstr "roof"),
     ("message", .jstr "hi"), ("created_time", .jstr "t0")])

/-- Witness for C2 on a concrete lead body and empty store. -/
theorem c2_witness :
    (Part0.postLead leadBodyW initState 3).1 = .okJson successBody
    ∧ countLead (Part0.postLead leadBodyW initState 3).2
        (Part0.leadVal leadBodyW "lead_id") = 1
    ∧ (Part0.postLead leadBodyW (Part0.postLead leadBodyW initState 3).2 4).1 =
      .okJson successBody
    ∧ (Part0.postLead leadBodyW (Part0.postLead leadBodyW initState 3).2 4).2 =
      (Part0.postLead leadBodyW initState 3).2 :=
  c2_idempotent_leads leadBodyW initState 3 4 (by decide) (by decide) (by decide)

/-! ## C7 -/

/-- A create body whose metadata holds only `service_type`, with the
`ad_content` string also supplied. -/
def minimalCreateBody (x : String) (adc : String) : JValue :=
  .jobj (.cons "ad_content" (.jstr adc)
    (.cons "metadata" (.jobj (.cons "service_type" (.jstr x) .nil)) .nil))

/-- The row the first `src/index.js` variant stores for that body: this
variant's documented defaults are `location = ''`,
`status = 'pending_approval'`, `budget = 0`, `max_daily_spend = 50`,
`image_url = ''`, `customer_phone = ''`. -/
def minimalCreateRow (x : String) (adc : String) (i : Nat) (now : Nat) : AdRow :=
  { id := i
    service_type := .text x
    location := .text ""
    status := .text "pending_approval"
    campaign_id := .null
    ad_set_id := .null
    fb_ad_ids := .null
    budget := .int 0
    max_daily_spend := .int 50
    image_url := .text ""
    customer_phone := .text ""
    ad_content := .text adc
    metadata := .text (stringify (.jobj (.cons "service_type" (.jstr x) .nil)))
    error_details := .null
    notes := .null
    created_at := now
    updated_at := now }

/-- C7 counterexample: in the `part_000` variant the same request fails
with 500 (binding the `undefined` optional metadata fields throws) and
stores nothing. -/
theorem c7_counterexample :
    (Part0.createAd (minimalCreateBody "X" "c") initState 0).1 = .serverError
    ∧ (Part0.createAd (minimalCreateBody "X" "c") initState 0).1.status = 500
    ∧ (Part0.createAd (minimalCreateBody "X" "c") initState 0).2 = initState :=
  ⟨rfl, rfl, rfl⟩

/-- C7 amended: in the first `src/index.js` variant, a create request
whose metadata holds only a non-empty `service_type = x` (plus a string
`ad_content`) succeeds, stores the ad with that `service_type` and this
variant's default values for every absent optional field, and answers
`{id}` with the positive next rowid; in the `part_000` variant the same
request fails with 500 and stores nothing. -/
theorem c7_amended (x adc : String) (st : DbState) (now : Nat)
    (hx : x ≠ "") (hpos : 0 < st.adNext) :
    (IndexA.createAd (minimalCreateBody x adc) st now =
        (.okJson (idBody st.adNext),
          { st with ads := st.ads ++ [minimalCreateRow x adc st.adNext now],
                    adNext := st.adNext + 1 })
      ∧ 0 < st.adNext)
    ∧ Part0.createAd (minimalCreateBody x adc) st now = (.serverError, st) := by
  refine ⟨⟨?_, hpos⟩, rfl⟩
  have hmeta : IndexA.metaOf (minimalCreateBody x adc) =
      some (some (.jobj (.cons "service_type" (.jstr x) .nil))) := rfl
  have hok : IndexA.metaOk (some (.jobj (.cons "service_type" (.jstr x) .nil))) = true := by
    simp [IndexA.metaOk, truthyO, truthyV, jget, JObject.find, hx]
  unfold IndexA.createAd
  rw [hmeta]
  show IndexA.createAdWith (some (.jobj (.cons "service_type" (.jstr x) .nil)))
      (minimalCreateBody x adc) st now = _
  unfold IndexA.createAdWith
  rw [if_pos hok]
  rfl

/-- Witness for C7 at a concrete service type and store. -/
theorem c7_witness :
    IndexA.createAd (minimalCreateBody "plumbing" "ad text") initState 9 =
      (.okJson (idBody 1),
        { initState with ads := [minimalCreateRow "plumbing" "ad text" 1 9],
                         adNext := 2 })
    ∧ Part0.createAd (minimalCreateBody "plumbing" "ad text") initState 9 =
      (.serverError, initState) :=
  ⟨(c7_amended "plumbing" "ad text" initState 9 (by decide) (by decide)).1.1,
   (c7_amended "plumbing" "ad text" initState 9 (by decide) (by decide)).2⟩

/-! ## C6 -/

/-- A create body whose `metadata` field holds `meta`, followed by the
remaining body fields `rest`. -/
def mkCreateBody (meta : JValue) (rest : JObject) : JValue :=
  .jobj (.cons "metadata" meta rest)

/-- A structured metadata value populating every optional field, so that
the `part_000` variant accepts its object form. -/
def c6MetaObj : JValue :=
  .jobj (.cons "service_type" (.jstr "X")
    (.cons "location" (.jstr "LA")
    (.cons "max_daily_spend" (.jnum 50)
    (.cons "image_url" (.jstr "u")
    (.cons "customer_phone" (.jstr "p") .nil)))))

/-- The non-metadata create fields used in the C6 concrete checks. -/
def c6Rest : JObject :=
  .cons "ad_content" (.jstr "c") (.cons "budget" (.jnum 5) .nil)

/-- C6 counterexample: in the `part_000` variant, sending the
JSON-encoded string of a metadata value is answered 500 while sending the
decoded object itself succeeds — the two responses differ. -/
theorem c6_counterexample :
    (Part0.createAd (mkCreateBody (.jstr (stringify c6MetaObj)) c6Rest) initState 0).1.status = 500
    ∧ (Part0.createAd (mkCreateBody c6MetaObj c6Rest) initState 0).1.status = 200
    ∧ (Part0.createAd (mkCreateBody (.jstr (stringify c6MetaObj)) c6Rest) initState 0).1 ≠
      (Part0.createAd (mkCreateBody c6MetaObj c6Rest) initState 0).1 :=
  ⟨rfl, rfl, fun h => absurd (congrArg Resp.status h) (by decide)⟩

/-- C6 amended: in the first `src/index.js` variant, a create request
whose `metadata` is a JSON string decoding to `m` produces the same
response and the same stored state as the request carrying `m` itself,
whenever the decoded metadata passes validation (truthy `service_type`;
when validation fails both forms answer 400 with no insert but echo
differently-shaped bodies).  In the `part_000` variant a string
`metadata` always fails with 500 and no insert, regardless of how the
object form behaves. -/
theorem c6_amended (s : String) (m : JValue) (rest : JObject) (st : DbState)
    (now : Nat) (hp : parse s = some m)
    (hs : truthyO (jget m "service_type") = true) :
    IndexA.createAd (mkCreateBody (.jstr s) rest) st now =
      IndexA.createAd (mkCreateBody m rest) st now
    ∧ Part0.createAd (mkCreateBody (.jstr s) rest) st now = (.serverError, st) := by
  refine ⟨?_, rfl⟩
  obtain ⟨fs, rfl⟩ : ∃ fs, m = .jobj fs := by
    cases m with
    | jobj fs => exact ⟨fs, rfl⟩
    | jnull => simp [jget, truthyO] at hs
    | jbool b => simp [jget, truthyO] at hs
    | jnum n => simp [jget, truthyO] at hs
    | jstr s2 => simp [jget, truthyO] at hs
    | jarr xs => simp [jget, truthyO] at hs
  have hm1 : IndexA.metaOf (mkCreateBody (.jstr s) rest) = some (some (.jobj fs)) := by
    show (match parse s with
      | some m => some (some m)
      | none => none) = some (some (.jobj fs))
    rw [hp]
  have hm2 : IndexA.metaOf (mkCreateBody (.jobj fs) rest) = some (some (.jobj fs)) := rfl
  have hok : IndexA.metaOk (some (.jobj fs)) = true := by
    simp only [IndexA.metaOk, truthyV, Bool.true_and]
    exact hs
  unfold IndexA.createAd
  rw [hm1, hm2]
  show IndexA.createAdWith (some (.jobj fs)) (mkCreateBody (.jstr s) rest) st now =
    IndexA.createAdWith (some (.jobj fs)) (mkCreateBody (.jobj fs) rest) st now
  unfold IndexA.createAdWith
  rw [if_pos hok, if_pos hok]
  rfl

/-- Witness for C6 at a concrete metadata value and its JSON encoding. -/
theorem c6_witness :
    parse "\x7b\"service_type\":\"X\"\x7d" =
      some (.jobj (.cons "service_type" (.jstr "X") .nil))
    ∧ IndexA.createAd
        (mkCreateBody (.jstr "\x7b\"service_type\":\"X\"\x7d") c6Rest) initState 2 =
      IndexA.createAd
        (mkCreateBody (.jobj (.cons "service_type" (.jstr "X") .nil)) c6Rest) initState 2
    ∧ Part0.createAd
        (mkCreateBody (.jstr "\x7b\"service_type\":\"X\"\x7d") c6Rest) initState 2 =
      (.serverError, initState) :=
  ⟨rfl,
   (c6_amended "\x7b\"service_type\":\"X\"\x7d"
      (.jobj (.cons "service_type" (.jstr "X") .nil)) c6Rest initState 2 rfl rfl).1,
   (c6_amended "\x7b\"service_type\":\"X\"\x7d"
      (.jobj (.cons "service_type" (.jstr "X") .nil)) c6Rest initState 2 rfl rfl).2⟩
